import Mathlib

/-!
Verification of the Epsteindb text-search repository.

The development shallowly embeds the two Python modules:
  * searchable_text_db_efficient.py (the CLI indexer and search client), and
  * text_search_webui.py (the Flask web search service).

Strings are modelled as lists of characters; file-system access, SQLite
execution and exceptions are modelled by explicit environments returning
Option values (none stands for a raised exception on that call).
-/

/- ================================================================
   Full-text query construction.

   Both modules build the FTS5 match string the same way:
     if ' ' in query:
         escaped_query = query.replace(chr(34), chr(34) * 2)
         quoted_query = chr(34) + escaped_query + chr(34)
     else:
         quoted_query = query
   and then prepend a field scope such as content: or filename:.
   ================================================================ -/

/-- Python str.replace with a one-character pattern scans left to right,
doubling every double-quote character. -/
def escDQ : List Char → List Char
  | [] => []
  | c :: cs => if c = '"' then '"' :: '"' :: escDQ cs else c :: escDQ cs

/-- Spec-side phrase form: the query with every embedded double quote
doubled, and the whole wrapped in double quotes. -/
def phraseQuoted (q : List Char) : List Char :=
  '"' :: (q.map fun c => if c = '"' then ['"', '"'] else [c]).flatten ++ ['"']

/-- searchable_text_db_efficient.py lines 139-144 (TextSearchDatabase.search):
the match string for the combined content OR filename search. -/
def cli_search_fts (query : List Char) : List Char :=
  if query.contains ' ' then
    let escaped_query := escDQ query
    let quoted_query := '"' :: escaped_query ++ ['"']
    "content:".data ++ quoted_query ++ " OR filename:".data ++ quoted_query
  else
    "content:".data ++ query ++ " OR filename:".data ++ query

/-- searchable_text_db_efficient.py lines 177-197
(TextSearchDatabase.search_content_only). -/
def cli_content_fts (query : List Char) : List Char :=
  let quoted_query :=
    if query.contains ' ' then '"' :: escDQ query ++ ['"'] else query
  "content:".data ++ quoted_query

/-- searchable_text_db_efficient.py lines 215-235
(TextSearchDatabase.search_filename_only). -/
def cli_filename_fts (query : List Char) : List Char :=
  let quoted_query :=
    if query.contains ' ' then '"' :: escDQ query ++ ['"'] else query
  "filename:".data ++ quoted_query

/-- text_search_webui.py lines 39-45 (search_database): the quoted or raw
query string. -/
def web_quoted_query (query : List Char) : List Char :=
  if query.contains ' ' then '"' :: escDQ query ++ ['"'] else query

/-- text_search_webui.py lines 47-115 (search_database): the match string
per search_type, defaulting to a content search. -/
def web_fts (search_type : String) (query : List Char) : List Char :=
  let quoted_query := web_quoted_query query
  if search_type = "content" then "content:".data ++ quoted_query
  else if search_type = "filename" then "filename:".data ++ quoted_query
  else if search_type = "all" then
    "content:".data ++ quoted_query ++ " OR filename:".data ++ quoted_query
  else "content:".data ++ quoted_query

/- ================================================================
   Snippet extraction (text_search_webui.py lines 131-168).

   query_regex = re.escape(query)
   pattern = re.compile(query_regex, re.IGNORECASE)
   matches = list(pattern.finditer(full_content))
   if matches: first match, window clipping, ellipses (lines 136-147)
   else: first 2*snippet_length characters, trailing ellipsis (164-168).

   The regex search for an escaped (hence literal) pattern with
   re.IGNORECASE is modelled as a scan for the first position where the
   lowercased query is a prefix of the lowercased rest of the text.
   ================================================================ -/

def lowerList (s : List Char) : List Char := s.map Char.toLower

/-- Is there a case-insensitive occurrence of q at position i of t? -/
def matchesAt (t q : List Char) (i : Nat) : Bool :=
  (lowerList q).isPrefixOf (lowerList (t.drop i))

/-- Leftmost case-insensitive match position at or after i, scanning the
given number of candidate positions. -/
def firstMatchFrom (t q : List Char) : Nat → Nat → Option Nat
  | _, 0 => none
  | i, fuel + 1 => if matchesAt t q i then some i else firstMatchFrom t q (i + 1) fuel

/-- Position of the first case-insensitive occurrence of q in t, as
pattern.finditer finds it (positions 0 .. t.length). -/
def firstMatch (t q : List Char) : Option Nat :=
  firstMatchFrom t q 0 (t.length + 1)

/-- text_search_webui.py lines 136-147 and 164-168: the snippet around the
first match, or the fallback prefix snippet when there is no match.
Nat subtraction makes s - w equal to max(0, match.start() - w). -/
def extract_snippet (full_content q : List Char) (w : Nat) : List Char :=
  match firstMatch full_content q with
  | some s =>
      let start := s - w
      let e := min full_content.length (s + q.length + w)
      let snippet := (full_content.drop start).take (e - start)
      let snippet := if 0 < start then "...".data ++ snippet else snippet
      if e < full_content.length then snippet ++ "...".data else snippet
  | none =>
      let snippet := full_content.take (2 * w)
      if 2 * w < full_content.length then snippet ++ "...".data else snippet

/- ================================================================
   Highlighting (text_search_webui.py lines 149-155 and 170-176).

   highlighted_snippet = re.sub(query_regex,
       replacement wrapping the matched text in
       span class highlight markup, snippet, flags=re.IGNORECASE)

   re.sub replaces the case-insensitive literal matches found by a
   left-to-right scan: after a match the scan resumes past its end, so the
   replaced matches never overlap. The replacement keeps the matched text
   (backreference to group 0) between the two markers, preserving casing.
   The scan is modelled with a fuel argument (one unit per character
   consumed) so that it is structural and computes by kernel reduction.
   ================================================================ -/

def openTag : List Char := "<span class=\"highlight\">".data

def closeTag : List Char := "</span>".data

/-- The re.sub scan for a non-empty pattern qh :: qt: at each position,
either wrap a match of length qt.length + 1 and resume past it, or keep one
character and move on. -/
def hlScanAux (qh : Char) (qt : List Char) : Nat → List Char → List (Bool × List Char)
  | 0, _ => []
  | _ + 1, [] => []
  | fuel + 1, c :: rest =>
      if (lowerList (qh :: qt)).isPrefixOf (lowerList (c :: rest)) then
        (true, (c :: rest).take (qt.length + 1)) ::
          hlScanAux qh qt fuel ((c :: rest).drop (qt.length + 1))
      else (false, [c]) :: hlScanAux qh qt fuel rest

/-- The segments of the snippet, each marked matched or unmatched. -/
def hlScan (qh : Char) (qt : List Char) (s : List Char) : List (Bool × List Char) :=
  hlScanAux qh qt s.length s

/-- A matched segment is wrapped in the highlight markers, an unmatched one
is kept as it is. -/
def renderSeg (p : Bool × List Char) : List Char :=
  if p.1 then openTag ++ p.2 ++ closeTag else p.2

/-- re.sub with an empty pattern: the replacement is inserted at every
position of the string, including the final one. -/
def hl_empty : List Char → List Char
  | [] => openTag ++ closeTag
  | c :: rest => openTag ++ closeTag ++ c :: hl_empty rest

/-- The highlighting pass applied to a snippet. -/
def highlight_sub (q s : List Char) : List Char :=
  match q with
  | [] => hl_empty s
  | qh :: qt => ((hlScan qh qt s).map renderSeg).flatten

/-- Start offset (within the original snippet) of every matched segment. -/
def trueStarts : List (Bool × List Char) → List Nat
  | [] => []
  | (b, seg) :: rest =>
      (if b then [0] else []) ++ (trueStarts rest).map (· + seg.length)

/-- All positions of case-insensitive occurrences of q in s, overlapping
ones included. -/
def ciOccIdxs (s q : List Char) : List Nat :=
  (List.range (s.length + 1)).filter (fun i => matchesAt s q i)

/- ================================================================
   Result post-processing: full-content reload and fallback.

   The file system is modelled as a map from path to Option content;
   none stands for open() raising (file moved or deleted).
   ================================================================ -/

/-- A row as returned by the SQL query: filename, filepath, the stored
sample content, and the engine rank. -/
structure Row where
  filename : String
  filepath : String
  content : String
  rank : Int
deriving DecidableEq

/-- text_search_webui.py lines 124-129: open and read the file at filepath;
on failure fall back to the db sample content. -/
def web_display_content (fs : String → Option String)
    (filepath db_content : String) : String :=
  match fs filepath with
  | some full_content => full_content
  | none => db_content

/-- searchable_text_db_efficient.py lines 124-131
(TextSearchDatabase.load_full_content): open and read the file; on failure
print the error and return the empty string. -/
def load_full_content (fs : String → Option String) (filepath : String) : String :=
  match fs filepath with
  | some content => content
  | none => ""

/-- searchable_text_db_efficient.py lines 164-170 (and the identical loops
at 202-208, 240-246): replace the sample content of every row with the
reloaded full content. -/
def cli_full_results (fs : String → Option String) (rows : List Row) : List Row :=
  rows.map fun r => ⟨r.filename, r.filepath, load_full_content fs r.filepath, r.rank⟩

/-- A web search result dictionary (text_search_webui.py lines 157-163 and
178-184). -/
structure WebResult where
  file_path : String
  file_name : String
  snippet : List Char
  rank : Int
  content_preview : List Char
deriving DecidableEq

/-- text_search_webui.py lines 162 and 183: the first 1000 characters of
the full content, with an ellipsis when truncated. -/
def content_preview (full : List Char) : List Char :=
  full.take 1000 ++ (if 1000 < full.length then "...".data else [])

/-- text_search_webui.py lines 122-184: one row's result: reload the full
content (falling back to the db sample), extract the snippet, highlight it,
and build the preview. -/
def process_row (fs : String → Option String) (q : List Char) (w : Nat)
    (r : Row) : WebResult :=
  let full_content := (web_display_content fs r.filepath r.content).data
  let snippet := extract_snippet full_content q w
  let highlighted_snippet := highlight_sub q snippet
  ⟨r.filepath, r.filename, highlighted_snippet, r.rank, content_preview full_content⟩

/-- The web result list: one result per returned row. -/
def web_results (fs : String → Option String) (q : List Char) (w : Nat)
    (rows : List Row) : List WebResult :=
  rows.map (process_row fs q w)

/- ================================================================
   search_database as a whole (text_search_webui.py lines 21-192).

   The body of search_database after the connection is opened is one
   try/except/finally: the except handler returns the empty list, the
   finally clause closes the connection on every path. The full-text
   engine is modelled as an environment whose exec method returns the
   rows, or none when the MATCH raises (for instance an FTS5 syntax
   error caused by operator characters in an unquoted single word).
   ================================================================ -/

structure QueryEnv where
  fs : String → Option String
  exec : List Char → Option (List Row)

/-- The try block: build the scoped match string, run it, post-process the
rows. none stands for an exception raised anywhere inside the block. -/
def search_db_try (env : QueryEnv) (query : String) (w : Nat)
    (search_type : String) : Option (List WebResult) :=
  (env.exec (web_fts search_type query.data)).map
    (web_results env.fs query.data w)

/-- search_database with its except and finally clauses: the returned pair
is the result list and whether the connection was closed. -/
def search_database (env : QueryEnv) (query : String) (w : Nat)
    (search_type : String) : List WebResult × Bool :=
  match search_db_try env query w search_type with
  | some results => (results, true)
  | none => ([], true)

/- ================================================================
   The batch indexer (searchable_text_db_efficient.py lines 70-122).

   The enumeration produced by glob is taken as the input list of paths.
   The environment models the two fallible operations: reading a file
   (caught inside _read_file_content_sample, which returns the empty
   string) and the INSERT (caught by the per-document handler inside the
   batch loop, which logs and continues).

   for i in range(0, total_files, batch_size) slices the enumeration into
   consecutive batches of batch_size; self.conn.commit() runs once per
   batch, after the inner per-document loop. The function body has no
   return statement, so the call returns None.
   ================================================================ -/

structure IndexEnv where
  readResult : String → Option String
  insertOk : String → Bool

/-- searchable_text_db_efficient.py lines 113-122
(_read_file_content_sample): read the first sample_size characters; any
exception is caught there and the empty string is returned. -/
def read_file_content_sample (env : IndexEnv) (file_path : String)
    (sample_size : Nat) : String :=
  match env.readResult file_path with
  | some content => ⟨content.data.take sample_size⟩
  | none => ""

/-- os.path.basename: the part of the path after the last slash. -/
def basename (p : String) : String :=
  ⟨(p.data.reverse.takeWhile (fun c => c != '/')).reverse⟩

/-- A row of the text_files table. -/
structure Record where
  filename : String
  filepath : String
  content : String
deriving DecidableEq

/-- The record the per-document body inserts for path p, or none when the
INSERT raises and the document is skipped. A failed read still yields a
record: the empty sample from _read_file_content_sample is inserted. -/
def recordOf (env : IndexEnv) (sample_size : Nat) (p : String) : Option Record :=
  if env.insertOk p then
    some ⟨basename p, p, read_file_content_sample env p sample_size⟩
  else none

/-- The consecutive slices txt_files[i : i + batch_size] of the range loop,
with one fuel unit per consumed path so that the function computes by
kernel reduction. The second argument is batch_size - 1. -/
def toBatchesAux : Nat → Nat → List String → List (List String)
  | 0, _, _ => []
  | _ + 1, _, [] => []
  | fuel + 1, bp, x :: xs => (x :: xs.take bp) :: toBatchesAux fuel bp (xs.drop bp)

/-- The batch slices. Python range raises for step 0, so batch size 0 is
left undefined (the empty list); all theorems assume 0 < batch_size. -/
def toBatches (batch_size : Nat) (l : List String) : List (List String) :=
  match batch_size with
  | 0 => []
  | bp + 1 => toBatchesAux l.length bp l

/-- The records inserted while processing one batch: per-document failures
are skipped and processing continues. -/
def processBatch (env : IndexEnv) (sample_size : Nat)
    (batch : List String) : List Record :=
  batch.filterMap (recordOf env sample_size)

/-- The observable outcome of index_text_files: the records grouped by the
commit that made them durable, the logged errors, the count in the final
progress message, and the return value of the call. -/
structure IndexRun where
  batches : List (List Record)
  readErrors : List String
  insertErrors : List String
  finalPrintedCount : Nat
  retVal : Option Nat
deriving DecidableEq

/-- searchable_text_db_efficient.py lines 70-111 (index_text_files). -/
def index_text_files (env : IndexEnv) (txt_files : List String)
    (batch_size content_sample_size : Nat) : IndexRun :=
  { batches :=
      (toBatches batch_size txt_files).map (processBatch env content_sample_size),
    readErrors := txt_files.filter (fun p => (env.readResult p).isNone),
    insertErrors := txt_files.filter (fun p => !(env.insertOk p)),
    finalPrintedCount := txt_files.length,
    retVal := none }

/-- All records durable at the end of the run. -/
def inserted (r : IndexRun) : List Record := r.batches.flatten

/-- The records durable after the first k commits. -/
def durableAfter (r : IndexRun) (k : Nat) : List Record :=
  (r.batches.take k).flatten

/-- How many commits the run performed. -/
def commitCount (r : IndexRun) : Nat := r.batches.length

/-- An environment in which the second file's INSERT raises. -/
def envInsertFails : IndexEnv :=
  ⟨fun _ => some ("hello"), fun p => !(p == "bad.txt")⟩

/-- An environment in which every read raises. -/
def envReadFails : IndexEnv := ⟨fun _ => none, fun _ => true⟩

/- ================================================================
   Image serving validation (text_search_webui.py lines 344-366).

   if not dir_num.isdigit() or int(dir_num) < 1 or int(dir_num) > 12:
       return "Invalid directory", 400
   if '..' in filename or filename.startswith('/'):
       return "Invalid filename", 400
   if os.path.exists(full_path) and os.path.isfile(full_path):
       return send_file(full_path)        -- modelled as status 200
   else:
       return "File not found", 404
   ================================================================ -/

/-- Python str.isdigit for ASCII digit strings: non-empty and all digits. -/
def str_isdigit (s : List Char) : Bool := !s.isEmpty && s.all Char.isDigit

/-- Python int() on a digit string: decimal value. -/
def str_toNat (s : List Char) : Nat :=
  s.foldl (fun n c => 10 * n + (c.toNat - Char.toNat '0')) 0

/-- Python substring containment: pat occurs somewhere in s. -/
def containsSub (pat s : List Char) : Bool :=
  (List.range (s.length + 1)).any fun i => pat.isPrefixOf (s.drop i)

/-- Python str.startswith with a slash. -/
def startsWithSlash (s : List Char) : Bool :=
  match s with
  | '/' :: _ => true
  | _ => false

/-- text_search_webui.py lines 344-366 (view_image): the HTTP status of the
response, with file_exists standing for os.path.exists and os.path.isfile
of the joined path, and 200 for a successful send_file. -/
def view_image_status (dir_num filename : List Char) (file_exists : Bool) : Nat :=
  if !(str_isdigit dir_num) || str_toNat dir_num < 1 || 12 < str_toNat dir_num then
    400
  else if containsSub "..".data filename || startsWithSlash filename then 400
  else if file_exists then 200
  else 404

/-- The directory tokens 001 through 012. -/
def acceptedDirTokens : List (List Char) :=
  ["001".data, "002".data, "003".data, "004".data, "005".data, "006".data,
   "007".data, "008".data, "009".data, "010".data, "011".data, "012".data]

/- ================================================================
   Theorems.
   ================================================================ -/

theorem escDQ_eq_join (q : List Char) :
    escDQ q = (q.map fun c => if c = '"' then ['"', '"'] else [c]).flatten := by
  induction q with
  | nil => rfl
  | cons c cs ih =>
      by_cases h : c = '"' <;> simp [escDQ, h, ih]

theorem web_quoted_query_eq (q : List Char) :
    web_quoted_query q = if q.contains ' ' then phraseQuoted q else q := by
  unfold web_quoted_query phraseQuoted
  by_cases h : q.contains ' ' <;> simp [h, escDQ_eq_join]

/-- C1: every search operation hands the full-text engine the phrase form
(embedded double quotes doubled, whole query wrapped in double quotes) when
the query contains a space, and the raw unescaped query, with only the field
scope prefix added, when it does not. -/
theorem c1_phrase_vs_term_query (query : List Char) :
    (cli_search_fts query =
      if query.contains ' ' then
        "content:".data ++ phraseQuoted query ++
          " OR filename:".data ++ phraseQuoted query
      else
        "content:".data ++ query ++ " OR filename:".data ++ query) ∧
    (cli_content_fts query =
      "content:".data ++
        (if query.contains ' ' then phraseQuoted query else query)) ∧
    (cli_filename_fts query =
      "filename:".data ++
        (if query.contains ' ' then phraseQuoted query else query)) ∧
    (web_fts "content" query =
      "content:".data ++
        (if query.contains ' ' then phraseQuoted query else query)) ∧
    (web_fts "filename" query =
      "filename:".data ++
        (if query.contains ' ' then phraseQuoted query else query)) ∧
    (web_fts "all" query =
      if query.contains ' ' then
        "content:".data ++ phraseQuoted query ++
          " OR filename:".data ++ phraseQuoted query
      else
        "content:".data ++ query ++ " OR filename:".data ++ query) := by
  refine ⟨?_, ?_, ?_, ?_, ?_, ?_⟩ <;>
    simp only [cli_search_fts, cli_content_fts, cli_filename_fts, web_fts,
      web_quoted_query] <;>
    by_cases h : ' ' ∈ query <;>
      simp [h, phraseQuoted, escDQ_eq_join]

theorem firstMatchFrom_some {t q : List Char} :
    ∀ {i fuel s : Nat}, firstMatchFrom t q i fuel = some s →
      matchesAt t q s = true ∧ i ≤ s ∧
        ∀ j, i ≤ j → j < s → matchesAt t q j = false := by
  intro i fuel
  induction fuel generalizing i with
  | zero => intro s h; simp [firstMatchFrom] at h
  | succ m ih =>
      intro s h
      by_cases hm : matchesAt t q i
      · simp [firstMatchFrom, hm] at h
        subst h
        exact ⟨hm, le_refl _, fun j h1 h2 => absurd (lt_of_le_of_lt h1 h2) (lt_irrefl _)⟩
      · simp only [firstMatchFrom, hm, if_false, Bool.false_eq_true] at h
        obtain ⟨hs, hle, hmin⟩ := ih h
        refine ⟨hs, le_trans (Nat.le_succ i) hle, fun j h1 h2 => ?_⟩
        rcases Nat.eq_or_lt_of_le h1 with rfl | h1
        · exact Bool.eq_false_iff.mpr (fun hc => by simp [hm] at hc)
        · exact hmin j h1 h2

theorem firstMatchFrom_none {t q : List Char} :
    ∀ {fuel i : Nat}, (∀ j, i ≤ j → j < i + fuel → matchesAt t q j = false) →
      firstMatchFrom t q i fuel = none := by
  intro fuel
  induction fuel with
  | zero => intro i _; rfl
  | succ m ih =>
      intro i h
      have h0 : matchesAt t q i = false := h i (le_refl i) (by omega)
      simp only [firstMatchFrom, h0, Bool.false_eq_true, if_false]
      exact ih fun j h1 h2 => h j (by omega) (by omega)

/-- C2: when the query occurs case-insensitively in the text, the snippet is
the slice of the text from max(0, s - w) (truncated Nat subtraction) through
min(length, s + |q| + w) around the first occurrence s, with an ellipsis
prepended exactly when the left bound was clipped and appended exactly when
the right bound was clipped. -/
theorem c2_snippet_window (t q : List Char) (w s : Nat)
    (h : firstMatch t q = some s) :
    (matchesAt t q s = true ∧ ∀ j, j < s → matchesAt t q j = false) ∧
    extract_snippet t q w =
      (if 0 < s - w then "...".data else []) ++
      ((t.drop (s - w)).take (min t.length (s + q.length + w) - (s - w))) ++
      (if min t.length (s + q.length + w) < t.length then "...".data else []) := by
  constructor
  · obtain ⟨h1, _, h3⟩ := firstMatchFrom_some h
    exact ⟨h1, fun j hj => h3 j (Nat.zero_le j) hj⟩
  · unfold extract_snippet
    rw [h]
    by_cases h1 : 0 < s - w <;>
      by_cases h2 : min t.length (s + q.length + w) < t.length <;>
        simp [h1, h2, List.append_assoc]

theorem c2_snippet_window_witness :
    firstMatch "hello world hello".data "LO".data = some 3 ∧
    extract_snippet "hello world hello".data "LO".data 2 =
      (if 0 < 3 - 2 then "...".data else []) ++
      (("hello world hello".data.drop (3 - 2)).take
        (min "hello world hello".data.length (3 + "LO".data.length + 2) - (3 - 2))) ++
      (if min "hello world hello".data.length (3 + "LO".data.length + 2) <
          "hello world hello".data.length then "...".data else []) :=
  ⟨by decide,
   (c2_snippet_window "hello world hello".data "LO".data 2 3 (by decide)).2⟩

/-- C3: when the query has no case-insensitive occurrence in the text, the
(total) snippet extraction takes the fallback path: the first 2 * w
characters of the text, with a trailing ellipsis exactly when the text is
longer than 2 * w characters. -/
theorem c3_snippet_fallback (t q : List Char) (w : Nat)
    (h : ∀ i, i ≤ t.length → matchesAt t q i = false) :
    firstMatch t q = none ∧
    extract_snippet t q w =
      t.take (2 * w) ++ (if 2 * w < t.length then "...".data else []) := by
  have hn : firstMatch t q = none := by
    unfold firstMatch
    exact firstMatchFrom_none fun j h1 h2 => h j (by omega)
  refine ⟨hn, ?_⟩
  unfold extract_snippet
  rw [hn]
  by_cases h2 : 2 * w < t.length <;> simp [h2]

theorem c3_snippet_fallback_witness :
    extract_snippet "abcdef".data "zz".data 2 =
      "abcdef".data.take (2 * 2) ++
        (if 2 * 2 < "abcdef".data.length then "...".data else []) :=
  (c3_snippet_fallback "abcdef".data "zz".data 2 (by decide)).2

theorem matchesAt_zero (s q : List Char) :
    matchesAt s q 0 = (lowerList q).isPrefixOf (lowerList s) := by
  simp [matchesAt]

theorem matchesAt_cons_succ (c : Char) (rest q : List Char) (i : Nat) :
    matchesAt (c :: rest) q (i + 1) = matchesAt rest q i := rfl

theorem matchesAt_add (s q : List Char) (L k : Nat) :
    matchesAt s q (L + k) = matchesAt (s.drop L) q k := by
  simp [matchesAt, List.drop_drop, Nat.add_comm]

theorem matchesAt_nil (qh : Char) (qt : List Char) (i : Nat) :
    matchesAt [] (qh :: qt) i = false := by
  simp [matchesAt, lowerList, List.isPrefixOf]

theorem prefix_length_le {qh : Char} {qt s : List Char}
    (hp : (lowerList (qh :: qt)).isPrefixOf (lowerList s) = true) :
    qt.length + 1 ≤ s.length := by
  have h := List.IsPrefix.length_le (List.isPrefixOf_iff_prefix.mp hp)
  simpa [lowerList] using h

theorem hlScanAux_join (qh : Char) (qt : List Char) :
    ∀ fuel s, s.length ≤ fuel →
      ((hlScanAux qh qt fuel s).map Prod.snd).flatten = s := by
  intro fuel
  induction fuel with
  | zero =>
      intro s hs
      have : s = [] := List.length_eq_zero.mp (Nat.le_zero.mp hs)
      subst this; rfl
  | succ m ih =>
      intro s hs
      match s with
      | [] => rfl
      | c :: rest =>
          have hs' : rest.length + 1 ≤ m + 1 := by simpa using hs
          by_cases hp : (lowerList (qh :: qt)).isPrefixOf (lowerList (c :: rest)) = true
          · have hL := prefix_length_le hp
            simp only [hlScanAux, hp, if_true, List.map_cons, List.flatten_cons]
            rw [ih _ (by simp only [List.length_drop, List.length_cons]; omega)]
            exact List.take_append_drop _ _
          · simp only [hlScanAux, hp, if_false, Bool.false_eq_true, List.map_cons,
              List.flatten_cons]
            rw [ih rest (by omega)]
            rfl

theorem hlScanAux_true_seg (qh : Char) (qt : List Char) :
    ∀ fuel s, s.length ≤ fuel →
      ∀ p ∈ hlScanAux qh qt fuel s, p.1 = true →
        lowerList p.2 = lowerList (qh :: qt) := by
  intro fuel
  induction fuel with
  | zero =>
      intro s hs p hp
      have : s = [] := List.length_eq_zero.mp (Nat.le_zero.mp hs)
      subst this; simp [hlScanAux] at hp
  | succ m ih =>
      intro s hs p hmem hb
      match s with
      | [] => simp [hlScanAux] at hmem
      | c :: rest =>
          have hs' : rest.length + 1 ≤ m + 1 := by simpa using hs
          by_cases hp : (lowerList (qh :: qt)).isPrefixOf (lowerList (c :: rest)) = true
          · have hL := prefix_length_le hp
            simp only [hlScanAux, hp, if_true, List.mem_cons] at hmem
            rcases hmem with rfl | hmem
            · obtain ⟨t, ht⟩ := List.isPrefixOf_iff_prefix.mp hp
              simp only [lowerList, List.map_take] at ht ⊢
              rw [← ht]
              have : (List.map Char.toLower (qh :: qt)).length = qt.length + 1 := by
                simp
              rw [← this, List.take_left]
            · exact ih _ (by simp only [List.length_drop, List.length_cons]; omega)
                p hmem hb
          · simp only [hlScanAux, hp, if_false, Bool.false_eq_true, List.mem_cons] at hmem
            rcases hmem with rfl | hmem
            · simp at hb
            · exact ih rest (by omega) p hmem hb

theorem hlScanAux_coverage (qh : Char) (qt : List Char) :
    ∀ fuel s, s.length ≤ fuel →
      ∀ i, matchesAt s (qh :: qt) i = true →
        ∃ j, j ∈ trueStarts (hlScanAux qh qt fuel s) ∧
          j ≤ i ∧ i < j + (qt.length + 1) := by
  intro fuel
  induction fuel with
  | zero =>
      intro s hs i hi
      have : s = [] := List.length_eq_zero.mp (Nat.le_zero.mp hs)
      subst this
      rw [matchesAt_nil] at hi
      exact absurd hi (by simp)
  | succ m ih =>
      intro s hs i hi
      match s with
      | [] =>
          rw [matchesAt_nil] at hi
          exact absurd hi (by simp)
      | c :: rest =>
          have hs' : rest.length + 1 ≤ m + 1 := by simpa using hs
          by_cases hp : (lowerList (qh :: qt)).isPrefixOf (lowerList (c :: rest)) = true
          · have hL := prefix_length_le hp
            have hL' : qt.length + 1 ≤ rest.length + 1 := by simpa using hL
            have hlen : ((c :: rest).take (qt.length + 1)).length = qt.length + 1 := by
              simp only [List.length_take, List.length_cons]
              omega
            by_cases hiL : i < qt.length + 1
            · refine ⟨0, ?_, Nat.zero_le i, by omega⟩
              simp [hlScanAux, hp, trueStarts]
            · have hi' : matchesAt ((c :: rest).drop (qt.length + 1)) (qh :: qt)
                  (i - (qt.length + 1)) = true := by
                rw [← matchesAt_add]
                have : qt.length + 1 + (i - (qt.length + 1)) = i := by omega
                rw [this]
                exact hi
              obtain ⟨j, hjmem, hj1, hj2⟩ :=
                ih ((c :: rest).drop (qt.length + 1))
                  (by simp only [List.length_drop, List.length_cons]; omega)
                  (i - (qt.length + 1)) hi'
              refine ⟨j + (qt.length + 1), ?_, by omega, by omega⟩
              simp only [hlScanAux, hp, if_true, trueStarts, hlen]
              simp only [List.mem_append, List.mem_ite_nil_right, List.mem_map]
              right
              exact ⟨j, hjmem, rfl⟩
          · have hi0 : i ≠ 0 := by
              intro h0
              subst h0
              have : matchesAt (c :: rest) (qh :: qt) 0 =
                  (lowerList (qh :: qt)).isPrefixOf (lowerList (c :: rest)) := by
                simp [matchesAt]
              rw [this] at hi
              exact hp hi
            obtain ⟨k, rfl⟩ := Nat.exists_eq_succ_of_ne_zero hi0
            have hik : matchesAt rest (qh :: qt) k = true := hi
            obtain ⟨j, hjmem, hj1, hj2⟩ := ih rest (by omega) k hik
            refine ⟨j + 1, ?_, by omega, by omega⟩
            simp only [hlScanAux, hp, if_false, Bool.false_eq_true, trueStarts]
            simp only [List.length_cons, List.length_nil, List.mem_append,
              List.mem_map]
            right
            exact ⟨j, hjmem, rfl⟩

/-- C4 (amended): the highlighter wraps exactly the case-insensitive
matches found by the left-to-right non-overlapping re.sub scan. The
segments of the scan concatenate back to the snippet (so each wrapped
segment keeps its original casing), every wrapped segment is a
case-insensitive copy of the query, and every case-insensitive occurrence
of the query either starts a wrapped segment or overlaps a wrapped segment
that starts earlier; when occurrences do not overlap, every one of them is
wrapped. -/
theorem c4_every_scan_match_wrapped (qh : Char) (qt : List Char) (s : List Char) :
    highlight_sub (qh :: qt) s = ((hlScan qh qt s).map renderSeg).flatten ∧
    ((hlScan qh qt s).map Prod.snd).flatten = s ∧
    (∀ p ∈ hlScan qh qt s, p.1 = true → lowerList p.2 = lowerList (qh :: qt)) ∧
    (∀ i, matchesAt s (qh :: qt) i = true →
      ∃ j, j ∈ trueStarts (hlScan qh qt s) ∧
        j ≤ i ∧ i < j + (qt.length + 1)) := by
  refine ⟨rfl, hlScanAux_join qh qt s.length s (le_refl _), ?_, ?_⟩
  · intro p hp hb
    exact hlScanAux_true_seg qh qt s.length s (le_refl _) p hp hb
  · intro i hi
    exact hlScanAux_coverage qh qt s.length s (le_refl _) i hi

theorem c4_every_scan_match_wrapped_witness :
    highlight_sub "the".data "The theory".data =
      ("<span class=\"highlight\">The</span> <span class=\"highlight\">the</span>ory").data ∧
    (∃ j, j ∈ trueStarts (hlScan 't' "he".data "The theory".data) ∧
      j ≤ 0 ∧ 0 < j + ("he".data.length + 1)) ∧
    (∃ j, j ∈ trueStarts (hlScan 't' "he".data "The theory".data) ∧
      j ≤ 4 ∧ 4 < j + ("he".data.length + 1)) :=
  ⟨by decide,
   (c4_every_scan_match_wrapped 't' "he".data "The theory".data).2.2.2 0 (by decide),
   (c4_every_scan_match_wrapped 't' "he".data "The theory".data).2.2.2 4 (by decide)⟩

/-- C4 (counterexample): the query aa has two case-insensitive occurrences
in the snippet aaa, at positions 0 and 1, but the highlighter wraps only
the one at position 0: the occurrence at position 1 extends past the single
wrapped region, so not every occurrence is wrapped. -/
theorem c4_counterexample_overlap :
    ciOccIdxs "aaa".data "aa".data = [0, 1] ∧
    highlight_sub "aa".data "aaa".data =
      ("<span class=\"highlight\">aa</span>a").data ∧
    trueStarts (hlScan 'a' "a".data "aaa".data) = [0] :=
  ⟨by decide, by decide, by decide⟩

/-- C5 (amended): when the stored filepath of a hit can no longer be read,
the query still produces a result for that hit on both paths; the web path
uses the indexed sample content from the database as the display content of
the result, while the CLI search operations (search, search_content_only,
search_filename_only, which share the reload loop) replace the sample with
the empty string returned by load_full_content, not with the sample. -/
theorem c5_stale_path_fallback (fs : String → Option String) (q : List Char)
    (w : Nat) (r : Row) (rows : List Row) (h : fs r.filepath = none) :
    web_display_content fs r.filepath r.content = r.content ∧
    (web_results fs q w (r :: rows)).length = rows.length + 1 ∧
    (web_results fs q w (r :: rows)).head? = some (process_row fs q w r) ∧
    (process_row fs q w r).content_preview = content_preview r.content.data ∧
    load_full_content fs r.filepath = "" ∧
    (cli_full_results fs (r :: rows)).length = rows.length + 1 ∧
    (cli_full_results fs (r :: rows)).head? =
      some ⟨r.filename, r.filepath, "", r.rank⟩ := by
  refine ⟨?_, by simp [web_results], by simp [web_results], ?_, ?_,
    by simp [cli_full_results], ?_⟩
  · simp [web_display_content, h]
  · simp [process_row, web_display_content, h]
  · simp [load_full_content, h]
  · simp [cli_full_results, load_full_content, h]

theorem c5_stale_path_fallback_witness :
    web_display_content (fun _ => none) "/gone.txt" "sample text" =
      "sample text" ∧
    (cli_full_results (fun _ => none)
        [⟨"f.txt", "/gone.txt", "sample text", 1⟩]).head? =
      some ⟨"f.txt", "/gone.txt", "", 1⟩ :=
  ⟨(c5_stale_path_fallback (fun _ => none) [] 0
      ⟨"f.txt", "/gone.txt", "sample text", 1⟩ [] rfl).1,
   (c5_stale_path_fallback (fun _ => none) [] 0
      ⟨"f.txt", "/gone.txt", "sample text", 1⟩ [] rfl).2.2.2.2.2.2⟩

/-- C5 (counterexample): with every file unreadable, the CLI reload loop
produces the empty string, not the indexed sample, as the display content
of the hit: the claim that each CLI search operation falls back to the
indexed sample content fails. -/
theorem c5_counterexample_cli_empty :
    cli_full_results (fun _ => none)
        [⟨"f.txt", "/gone.txt", "sample text", 1⟩] =
      [⟨"f.txt", "/gone.txt", "", 1⟩] ∧
    ("" : String) ≠ "sample text" :=
  ⟨by decide, by decide⟩

/-- C10: search_database is total at its interface: the connection is
closed on every path, an exception anywhere inside the try block (modelled
by exec returning none, as for an engine syntax error on an unquoted
single-word query) yields the empty result list rather than propagating,
and on success the post-processed rows are returned. -/
theorem c10_search_database_total (env : QueryEnv) (query : String) (w : Nat)
    (search_type : String) :
    (search_database env query w search_type).2 = true ∧
    (env.exec (web_fts search_type query.data) = none →
      search_database env query w search_type = ([], true)) ∧
    (∀ rows, env.exec (web_fts search_type query.data) = some rows →
      search_database env query w search_type =
        (web_results env.fs query.data w rows, true)) := by
  refine ⟨?_, ?_, ?_⟩
  · unfold search_database
    cases h : search_db_try env query w search_type <;> simp
  · intro h
    simp [search_database, search_db_try, h]
  · intro rows h
    simp [search_database, search_db_try, h]

theorem c10_search_database_total_witness :
    search_database ⟨fun _ => none, fun _ => none⟩ "AND(" 5 "content" =
      ([], true) :=
  (c10_search_database_total ⟨fun _ => none, fun _ => none⟩ "AND(" 5
    "content").2.1 rfl

theorem toBatchesAux_flatten (bp : Nat) :
    ∀ fuel l, l.length ≤ fuel → (toBatchesAux fuel bp l).flatten = l := by
  intro fuel
  induction fuel with
  | zero =>
      intro l hl
      have : l = [] := List.length_eq_zero.mp (Nat.le_zero.mp hl)
      subst this; rfl
  | succ m ih =>
      intro l hl
      match l with
      | [] => rfl
      | x :: xs =>
          have hl' : xs.length ≤ m := by simpa using hl
          simp only [toBatchesAux, List.flatten_cons]
          rw [ih (xs.drop bp) (by simp only [List.length_drop]; omega)]
          simp [List.take_append_drop]

theorem toBatchesAux_length (bp : Nat) :
    ∀ fuel l, l.length ≤ fuel →
      (toBatchesAux fuel bp l).length = (l.length + bp) / (bp + 1) := by
  intro fuel
  induction fuel with
  | zero =>
      intro l hl
      have : l = [] := List.length_eq_zero.mp (Nat.le_zero.mp hl)
      subst this
      simp [toBatchesAux, Nat.div_eq_of_lt]
  | succ m ih =>
      intro l hl
      match l with
      | [] => simp [toBatchesAux, Nat.div_eq_of_lt]
      | x :: xs =>
          have hl' : xs.length ≤ m := by simpa using hl
          simp only [toBatchesAux, List.length_cons]
          rw [ih (xs.drop bp) (by simp only [List.length_drop]; omega)]
          simp only [List.length_drop]
          have h1 : xs.length + 1 + bp = xs.length + (bp + 1) := by omega
          rw [h1, Nat.add_div_right _ (Nat.succ_pos bp)]
          by_cases hx : bp ≤ xs.length
          · have : xs.length - bp + bp = xs.length := by omega
            rw [this]
          · have h2 : xs.length - bp = 0 := by omega
            rw [h2]
            have h3 : xs.length / (bp + 1) = 0 := Nat.div_eq_of_lt (by omega)
            have h4 : (0 + bp) / (bp + 1) = 0 := Nat.div_eq_of_lt (by omega)
            rw [h3, h4]

theorem toBatchesAux_take_flatten (bp : Nat) :
    ∀ fuel l k, l.length ≤ fuel →
      ((toBatchesAux fuel bp l).take k).flatten = l.take (k * (bp + 1)) := by
  intro fuel
  induction fuel with
  | zero =>
      intro l k hl
      have : l = [] := List.length_eq_zero.mp (Nat.le_zero.mp hl)
      subst this; simp [toBatchesAux]
  | succ m ih =>
      intro l k hl
      match l with
      | [] => simp [toBatchesAux]
      | x :: xs =>
          have hl' : xs.length ≤ m := by simpa using hl
          match k with
          | 0 => simp
          | k' + 1 =>
              simp only [toBatchesAux, List.take_succ_cons, List.flatten_cons]
              rw [ih (xs.drop bp) k' (by simp only [List.length_drop]; omega)]
              have harith : (k' + 1) * (bp + 1) = (bp + k' * (bp + 1)) + 1 := by ring
              rw [harith, List.take_succ_cons, List.take_add]
              simp

theorem flatten_map_filterMap (f : String → Option Record) :
    ∀ L : List (List String),
      (L.map (List.filterMap f)).flatten = L.flatten.filterMap f := by
  intro L
  induction L with
  | nil => rfl
  | cons b bs ih =>
      simp only [List.map_cons, List.flatten_cons, List.filterMap_append, ih]

theorem filterMap_recordOf (env : IndexEnv) (S : Nat) :
    ∀ l : List String, l.filterMap (recordOf env S) =
      (l.filter env.insertOk).map
        (fun p => ⟨basename p, p, read_file_content_sample env p S⟩) := by
  intro l
  induction l with
  | nil => rfl
  | cons p ps ih =>
      by_cases h : env.insertOk p <;>
        simp [List.filterMap_cons, List.filter_cons, recordOf, h, ih]

theorem inserted_eq (env : IndexEnv) (files : List String) (B S : Nat)
    (h : 0 < B) :
    inserted (index_text_files env files B S) =
      files.filterMap (recordOf env S) := by
  obtain ⟨bp, rfl⟩ : ∃ bp, B = bp + 1 := ⟨B - 1, by omega⟩
  simp only [inserted, index_text_files, toBatches]
  have hpb : processBatch env S = List.filterMap (recordOf env S) := rfl
  rw [hpb, flatten_map_filterMap,
    toBatchesAux_flatten bp files.length files (le_refl _)]

/-- C6 (amended): index_text_files returns no value (None); the count of
successfully indexed documents is the number of inserted records, equal to
the number of enumerated documents whose INSERT succeeded, and the final
progress message reports the enumerated file count, not the successfully
indexed count. -/
theorem c6_indexer_return_value (env : IndexEnv) (files : List String)
    (B S : Nat) (h : 0 < B) :
    (index_text_files env files B S).retVal = none ∧
    (index_text_files env files B S).finalPrintedCount = files.length ∧
    (inserted (index_text_files env files B S)).length =
      (files.filter env.insertOk).length := by
  refine ⟨rfl, rfl, ?_⟩
  rw [inserted_eq env files B S h, filterMap_recordOf, List.length_map]

theorem c6_indexer_return_value_witness :
    (index_text_files ⟨fun _ => some ("x"), fun _ => true⟩
      ["a.txt"] 100 10240).retVal = none ∧
    (index_text_files ⟨fun _ => some ("x"), fun _ => true⟩
      ["a.txt"] 100 10240).finalPrintedCount = ["a.txt"].length ∧
    (inserted (index_text_files ⟨fun _ => some ("x"), fun _ => true⟩
      ["a.txt"] 100 10240)).length =
      (["a.txt"].filter (IndexEnv.insertOk ⟨fun _ => some ("x"), fun _ => true⟩)).length :=
  c6_indexer_return_value ⟨fun _ => some ("x"), fun _ => true⟩
    ["a.txt"] 100 10240 (by decide)

/-- C6 (counterexample): a run that successfully indexes exactly one of two
enumerated documents returns None, not the successfully indexed count 1. -/
theorem c6_counterexample_returns_none :
    (inserted (index_text_files envInsertFails
      ["good.txt", "bad.txt"] 100 10240)).length = 1 ∧
    (index_text_files envInsertFails ["good.txt", "bad.txt"] 100 10240).retVal ≠
      some (inserted (index_text_files envInsertFails
        ["good.txt", "bad.txt"] 100 10240)).length :=
  ⟨by decide, by decide⟩

/-- C7 (amended): per-document failures never abort the batch or the run
(every enumerated document is processed and the outcome per document is
independent of the others); a failed INSERT is logged and the document
skipped; but a failed read is logged and NOT skipped: the empty sample
returned by _read_file_content_sample is inserted as that document's
record. -/
theorem c7_per_document_failures (env : IndexEnv) (files : List String)
    (B S : Nat) (h : 0 < B) :
    inserted (index_text_files env files B S) =
      files.filterMap (recordOf env S) ∧
    (index_text_files env files B S).readErrors =
      files.filter (fun p => (env.readResult p).isNone) ∧
    (index_text_files env files B S).insertErrors =
      files.filter (fun p => !(env.insertOk p)) ∧
    (∀ p, env.readResult p = none → env.insertOk p = true →
      recordOf env S p = some ⟨basename p, p, ""⟩) := by
  refine ⟨inserted_eq env files B S h, rfl, rfl, ?_⟩
  intro p h1 h2
  simp [recordOf, h2, read_file_content_sample, h1]

theorem c7_per_document_failures_witness :
    inserted (index_text_files ⟨fun _ => none, fun _ => true⟩ ["a.txt"] 100 10) =
      ["a.txt"].filterMap (recordOf ⟨fun _ => none, fun _ => true⟩ 10) ∧
    (index_text_files ⟨fun _ => none, fun _ => true⟩
      ["a.txt"] 100 10).readErrors =
      ["a.txt"].filter
        (fun p => (IndexEnv.readResult ⟨fun _ => none, fun _ => true⟩ p).isNone) ∧
    (index_text_files ⟨fun _ => none, fun _ => true⟩
      ["a.txt"] 100 10).insertErrors =
      ["a.txt"].filter
        (fun p => !(IndexEnv.insertOk ⟨fun _ => none, fun _ => true⟩ p)) ∧
    (∀ p, IndexEnv.readResult ⟨fun _ => none, fun _ => true⟩ p = none →
      IndexEnv.insertOk ⟨fun _ => none, fun _ => true⟩ p = true →
      recordOf ⟨fun _ => none, fun _ => true⟩ 10 p = some ⟨basename p, p, ""⟩) :=
  c7_per_document_failures ⟨fun _ => none, fun _ => true⟩ ["a.txt"] 100 10
    (by decide)

/-- C7 (counterexample): a document whose read fails is not skipped: a
record with the empty sample content is inserted for it. -/
theorem c7_counterexample_read_failure_inserted :
    inserted (index_text_files envReadFails ["bad.txt"] 100 10240) =
      [⟨"bad.txt", "bad.txt", ""⟩] ∧
    inserted (index_text_files envReadFails ["bad.txt"] 100 10240) ≠ [] :=
  ⟨by decide, by decide⟩

/-- C8: indexing N enumerated documents with batch size B > 0 commits
exactly the ceiling of N / B times, each commit covering the insertions of
its whole batch: after the first k commits the durable records are exactly
those arising from the first k * B enumerated documents. -/
theorem c8_batch_commits (env : IndexEnv) (files : List String) (B S : Nat)
    (h : 0 < B) :
    commitCount (index_text_files env files B S) = (files.length + B - 1) / B ∧
    ∀ k, durableAfter (index_text_files env files B S) k =
      (files.take (k * B)).filterMap (recordOf env S) := by
  obtain ⟨bp, rfl⟩ : ∃ bp, B = bp + 1 := ⟨B - 1, by omega⟩
  constructor
  · simp only [commitCount, index_text_files, List.length_map, toBatches]
    rw [toBatchesAux_length bp files.length files (le_refl _)]
    have harith : files.length + (bp + 1) - 1 = files.length + bp := by omega
    rw [harith]
  · intro k
    simp only [durableAfter, index_text_files, toBatches]
    have hpb : processBatch env S = List.filterMap (recordOf env S) := rfl
    rw [hpb, ← List.map_take, flatten_map_filterMap,
      toBatchesAux_take_flatten bp files.length files k (le_refl _)]

theorem c8_batch_commits_witness :
    commitCount (index_text_files ⟨fun _ => some ("c"), fun _ => true⟩
      ["a", "b", "c"] 2 5) = (["a", "b", "c"].length + 2 - 1) / 2 ∧
    durableAfter (index_text_files ⟨fun _ => some ("c"), fun _ => true⟩
      ["a", "b", "c"] 2 5) 1 =
      (["a", "b", "c"].take (1 * 2)).filterMap
        (recordOf ⟨fun _ => some ("c"), fun _ => true⟩ 5) :=
  ⟨(c8_batch_commits ⟨fun _ => some ("c"), fun _ => true⟩
      ["a", "b", "c"] 2 5 (by decide)).1,
   (c8_batch_commits ⟨fun _ => some ("c"), fun _ => true⟩
      ["a", "b", "c"] 2 5 (by decide)).2 1⟩

/-- C9: view_image answers 400 exactly when the directory token is not a
digit-only string with value between 1 and 12, or the filename contains the
substring .. or begins with a slash; a validated request is served when the
file exists and answers 404 when it does not. The particular tokens named
by the specification behave as it says. -/
theorem c9_view_image_validation (d f : List Char) (ex : Bool) :
    (view_image_status d f ex = 400 ↔
      (str_isdigit d = false ∨ str_toNat d < 1 ∨ 12 < str_toNat d ∨
        containsSub "..".data f = true ∨ startsWithSlash f = true)) ∧
    (view_image_status d f ex ≠ 400 →
      view_image_status d f ex = if ex then 200 else 404) ∧
    (view_image_status "000".data "photo.jpg".data ex = 400) ∧
    (view_image_status "13".data "photo.jpg".data ex = 400) ∧
    (view_image_status "abc".data "photo.jpg".data ex = 400) ∧
    (view_image_status "-1".data "photo.jpg".data ex = 400) ∧
    ((acceptedDirTokens.map fun d => view_image_status d "photo.jpg".data false).all
      (fun st => st = 404) = true) ∧
    ((acceptedDirTokens.map fun d => view_image_status d "photo.jpg".data true).all
      (fun st => st = 200) = true) ∧
    (view_image_status "001".data "../../etc/passwd".data ex = 400) ∧
    (view_image_status "001".data "/etc/passwd".data ex = 400) := by
  refine ⟨?_, ?_, ?_, ?_, ?_, ?_, by decide, by decide, ?_, ?_⟩
  · unfold view_image_status
    by_cases h1 : str_isdigit d = true <;>
      by_cases h2 : str_toNat d < 1 <;>
        by_cases h3 : 12 < str_toNat d <;>
          by_cases h4 : containsSub "..".data f = true <;>
            by_cases h5 : startsWithSlash f = true <;>
              cases ex <;>
                simp_all
  · intro hne
    unfold view_image_status at hne ⊢
    by_cases h1 : str_isdigit d = true <;>
      by_cases h2 : str_toNat d < 1 <;>
        by_cases h3 : 12 < str_toNat d <;>
          by_cases h4 : containsSub "..".data f = true <;>
            by_cases h5 : startsWithSlash f = true <;>
              cases ex <;>
                simp_all
  all_goals cases ex <;> decide

theorem c9_view_image_validation_witness :
    view_image_status "001".data "photo.jpg".data false = if false then 200 else 404 :=
  (c9_view_image_validation "001".data "photo.jpg".data false).2.1 (by decide)
